import Mathlib

/-!
Verification of the call-lifecycle / transcript-capture component of the
`ai_interview` repository: a shallow embedding in Lean 4 of

  * `parseQuestions`, `sanitizeQuestions`, `formatTechstack` and the
    interview-creation `POST` handler (`src/app/api/vapi/generate/route.ts`),
  * `extractDataFromMessage` (`hooks/useInterviewData.ts`),
  * `handleVapiError` and `onMessage` (`hooks/useVapiCalls.ts`),
  * `createFeedback`, its response repair and validation
    (`src/lib/actions/general.action.ts`),
  * the terminal-state effect of the `Agent` component
    (`src/components/Agent.tsx`),

together with theorems settling the specification claims about them.
JavaScript strings are modelled as Lean `String`, machine numbers as
`Nat`/`Int` (all numeric values touched by the claims are integers, so the
integer fragment of the JSON number grammar is modelled; a non-integer
numeric literal behaves as a parse error), thrown exceptions as
`Except`/`Option`, and the external collaborators (voice provider, language
model, document store) as oracle inputs to the embedded functions.
-/

namespace AiInterview

/-! ## JavaScript string primitives used by the source -/

/-- Substring test on character lists: `needle` occurs contiguously in the
list. Models `String.prototype.includes`. -/
def infixAt (needle : List Char) : List Char → Bool
  | [] => needle.isEmpty
  | c :: rest => needle.isPrefixOf (c :: rest) || infixAt needle rest

/-- Models the JavaScript `haystack.includes(needle)`. -/
def jsIncludes (haystack needle : String) : Bool :=
  infixAt needle.toList haystack.toList

/-- Models `String.prototype.toLowerCase` on the ASCII fragment the source
vocabularies use. -/
def jsToLower (s : String) : String :=
  String.mk (s.toList.map Char.toLower)

/-- The characters the JavaScript regex class `\s` matches on the ASCII
range (space, tab, line feed, carriage return, vertical tab, form feed). -/
def isJsWs (c : Char) : Bool :=
  c = ' ' || c = '\t' || c = '\n' || c = '\r' || c = Char.ofNat 11 || c = Char.ofNat 12

/-- Models `String.prototype.trim`: strip leading and trailing whitespace. -/
def jsTrim (s : String) : String :=
  String.mk (((s.toList.dropWhile isJsWs).reverse.dropWhile isJsWs).reverse)

/-- Value of a run of decimal digit characters (the semantics of
`parseInt(run, 10)` on a digit string). -/
def digitsToNat (ds : List Char) : Nat :=
  ds.foldl (fun n c => n * 10 + (c.toNat - 48)) 0

/-- The first maximal run of decimal digits of a string: what the regex
`/\d+/` matches in `content.match(/\d+/)`. -/
def firstDigitRun : List Char → Option (List Char)
  | [] => none
  | c :: rest =>
    if c.isDigit then some (c :: rest.takeWhile Char.isDigit)
    else firstDigitRun rest

/-! ## A model of the JSON values produced by `JSON.parse` -/

/-- A JSON value. `num` carries an integer: every number in the claims and
in the source fixtures is an integer, and the parser below treats a
fractional or exponent part as a parse error. -/
inductive Json where
  | null
  | bool (b : Bool)
  | num (n : Int)
  | str (s : String)
  | arr (elems : List Json)
  | obj (fields : List (String × Json))

/-- JSON whitespace. -/
def jsonWs (c : Char) : Bool :=
  c = ' ' || c = '\n' || c = '\t' || c = '\r'

/-- Drop leading JSON whitespace. -/
def skipWs (cs : List Char) : List Char :=
  cs.dropWhile jsonWs

/-- Value of one hexadecimal digit, if the character is one. -/
def hexVal (c : Char) : Option Nat :=
  if '0' ≤ c ∧ c ≤ '9' then some (c.toNat - 48)
  else if 'a' ≤ c ∧ c ≤ 'f' then some (c.toNat - 87)
  else if 'A' ≤ c ∧ c ≤ 'F' then some (c.toNat - 55)
  else none

/-- The character denoted by a one-character JSON escape. -/
def escChar (c : Char) : Option Char :=
  if c = '"' then some '"'
  else if c = '\\' then some '\\'
  else if c = '/' then some '/'
  else if c = 'b' then some (Char.ofNat 8)
  else if c = 'f' then some (Char.ofNat 12)
  else if c = 'n' then some '\n'
  else if c = 'r' then some '\r'
  else if c = 't' then some '\t'
  else none

/-- Parse the body of a JSON string after the opening quote, returning the
decoded characters and the rest of the input after the closing quote. The
fuel is consumed one character per step, so `input.length + 1` suffices. -/
def parseStrBody : Nat → List Char → Option (List Char × List Char)
  | 0, _ => none
  | _ + 1, [] => none
  | n + 1, c :: rest =>
    if c = '"' then some ([], rest)
    else if c = '\\' then
      match rest with
      | 'u' :: h1 :: h2 :: h3 :: h4 :: rest2 =>
        match hexVal h1, hexVal h2, hexVal h3, hexVal h4 with
        | some a, some b, some d, some e =>
          match parseStrBody n rest2 with
          | some (s, r) => some (Char.ofNat (((a * 16 + b) * 16 + d) * 16 + e) :: s, r)
          | none => none
        | _, _, _, _ => none
      | e :: rest2 =>
        match escChar e with
        | some ch =>
          match parseStrBody n rest2 with
          | some (s, r) => some (ch :: s, r)
          | none => none
        | none => none
      | [] => none
    else if c.toNat < 32 then none
    else
      match parseStrBody n rest with
      | some (s, r) => some (c :: s, r)
      | none => none

/-- Parse a JSON number (integer fragment: optional minus, digits, no
leading zero, and a fractional or exponent part is rejected). -/
def parseNum (cs : List Char) : Option (Json × List Char) :=
  let (neg, cs1) :=
    match cs with
    | '-' :: t => (true, t)
    | _ => (false, cs)
  let ds := cs1.takeWhile Char.isDigit
  let rest := cs1.dropWhile Char.isDigit
  if ds.isEmpty then none
  else if ds.length > 1 ∧ ds.headD 'x' = '0' then none
  else
    match rest with
    | '.' :: _ => none
    | 'e' :: _ => none
    | 'E' :: _ => none
    | _ =>
      let v : Int := Int.ofNat (digitsToNat ds)
      some (Json.num (if neg then -v else v), rest)

mutual

/-- Parse one JSON value (after optional leading whitespace), returning the
value and the unconsumed rest. Fuel decreases on every recursive call; each
call also consumes at least one character, so `input.length + 1` suffices. -/
def parseVal : Nat → List Char → Option (Json × List Char)
  | 0, _ => none
  | n + 1, cs0 =>
    let cs := skipWs cs0
    match cs with
    | [] => none
    | c :: rest =>
      if c = '"' then
        match parseStrBody (rest.length + 1) rest with
        | some (s, r) => some (Json.str (String.mk s), r)
        | none => none
      else if c = '[' then
        let r1 := skipWs rest
        match r1 with
        | ']' :: r2 => some (Json.arr [], r2)
        | _ =>
          match parseElems n r1 with
          | some (xs, r2) => some (Json.arr xs, r2)
          | none => none
      else if c.toNat = 123 then
        let r1 := skipWs rest
        match r1 with
        | c2 :: r2 =>
          if c2.toNat = 125 then some (Json.obj [], r2)
          else
            match parseFields n r1 with
            | some (fs, r3) => some (Json.obj fs, r3)
            | none => none
        | [] => none
      else if ("null".toList).isPrefixOf cs then some (Json.null, cs.drop 4)
      else if ("true".toList).isPrefixOf cs then some (Json.bool true, cs.drop 4)
      else if ("false".toList).isPrefixOf cs then some (Json.bool false, cs.drop 5)
      else parseNum cs

/-- Parse the comma-separated elements of a non-empty JSON array, up to and
including the closing bracket. -/
def parseElems : Nat → List Char → Option (List Json × List Char)
  | 0, _ => none
  | n + 1, cs =>
    match parseVal n cs with
    | none => none
    | some (v, r) =>
      let r1 := skipWs r
      match r1 with
      | ',' :: r2 =>
        match parseElems n r2 with
        | some (xs, r3) => some (v :: xs, r3)
        | none => none
      | ']' :: r2 => some ([v], r2)
      | _ => none

/-- Parse the comma-separated fields of a non-empty JSON object, up to and
including the closing brace. -/
def parseFields : Nat → List Char → Option (List (String × Json) × List Char)
  | 0, _ => none
  | n + 1, cs =>
    match skipWs cs with
    | c :: rest =>
      if c = '"' then
        match parseStrBody (rest.length + 1) rest with
        | some (k, r) =>
          match skipWs r with
          | ':' :: r2 =>
            match parseVal n r2 with
            | some (v, r3) =>
              match skipWs r3 with
              | ',' :: r5 =>
                match parseFields n r5 with
                | some (fs, r6) => some ((String.mk k, v) :: fs, r6)
                | none => none
              | cc :: r5 =>
                if cc.toNat = 125 then some ([(String.mk k, v)], r5) else none
              | [] => none
            | none => none
          | _ => none
        | none => none
      else none
    | [] => none

end

/-- Models the JavaScript builtin `JSON.parse` on the fragment of JSON the
source exchanges with the language model: `none` is a thrown `SyntaxError`.
Trailing non-whitespace input is an error, as in the builtin. -/
def JSONparse (s : String) : Option Json :=
  match parseVal (s.length + 1) s.toList with
  | some (v, r) => if (skipWs r).isEmpty then some v else none
  | none => none

/-! ## `app/api/vapi/generate/route.ts`: sanitization and response repair -/

/-- The character class removed by
`question.replace(/[#_~`\x7b\x7d[\]|<>^]/g, "")` in `sanitizeQuestions`
(hash, underscore, tilde, backtick, both braces, both square brackets,
pipe, angle brackets, caret). -/
def sanitizedSpecials : List Char :=
  ['#', '_', '~', Char.ofNat 96, Char.ofNat 123, Char.ofNat 125,
   '[', ']', '|', '<', '>', '^']

/-- Collapse every maximal run of whitespace into a single space, the
effect of `.replace(/\s+/g, " ")`. A space at the head of the accumulator
always stems from the immediately following character of the same
whitespace run (a literal space is itself whitespace), so it is reused. -/
def collapseWs (cs : List Char) : List Char :=
  cs.foldr
    (fun c acc =>
      if isJsWs c then
        if acc.headD 'x' = ' ' then acc else ' ' :: acc
      else c :: acc)
    []

/-- One question through the sanitization chain of `sanitizeQuestions`:
remove asterisks, replace each slash with " or ", remove backslashes,
remove the fixed special-character class, collapse whitespace, trim. -/
def sanitizeQuestion (q : String) : String :=
  let s1 := q.toList.filter (fun c => c ≠ '*')
  let s2 := s1.flatMap (fun c => if c = '/' then (" or ").toList else [c])
  let s3 := s2.filter (fun c => c ≠ '\\')
  let s4 := s3.filter (fun c => ¬ sanitizedSpecials.contains c)
  jsTrim (String.mk (collapseWs s4))

/-- `sanitizeQuestions` applied to the value `JSON.parse` returned: each
element must be a string (calling `.replace` on a non-string throws a
`TypeError`, modelled by `Except.error`). -/
def sanitizeQuestionsJ : List Json → Except Unit (List String)
  | [] => .ok []
  | Json.str s :: rest =>
    match sanitizeQuestionsJ rest with
    | .ok qs => .ok (sanitizeQuestion s :: qs)
    | .error e => .error e
  | _ :: _ => .error ()

/-- Index of the last occurrence of `c`, if any. -/
def lastIdxOf (cs : List Char) (c : Char) : Option Nat :=
  match cs.reverse.findIdx? (fun x => x = c) with
  | some j => some (cs.length - 1 - j)
  | none => none

/-- The capture of `questionsText.match(/\[(.*)\]/s)`: with the dot-all
flag and a greedy star, the regex matches from the first `[` that has a
`]` somewhere after it through the last `]` of the string, and captures
what stands between them. `none` models a failed match. -/
def bracketCapture (s : String) : Option String :=
  let cs := s.toList
  match cs.findIdx? (fun x => x = '['), lastIdxOf cs ']' with
  | some i, some j =>
    if i < j then some (String.mk ((cs.drop (i + 1)).take (j - i - 1))) else none
  | _, _ => none

/-- Worker for `splitJsLines`: accumulates the current line reversed and
emits it at each line feed, stripping one carriage return directly before
the line feed (it belongs to the `/\r?\n/` separator). A carriage return
not followed by a line feed is kept, as in the regex split. -/
def splitJsLinesGo (acc : List Char) : List Char → List String
  | [] => [String.mk acc.reverse]
  | c :: rest =>
    if c = '\n' then
      (match acc with
       | '\r' :: acc2 => String.mk acc2.reverse
       | _ => String.mk acc.reverse) :: splitJsLinesGo [] rest
    else splitJsLinesGo (c :: acc) rest

/-- `questionsText.split(/\r?\n/)`. -/
def splitJsLines (s : String) : List String :=
  splitJsLinesGo [] s.toList

/-- `line.startsWith(c)` for a one-character argument. -/
def jsStartsWithChar (s : String) (c : Char) : Bool :=
  s.toList.headD (Char.ofNat 0) = c

/-- The quoted-line filter of the recovery path: keep lines whose trim is
non-empty and starts with a double quote and that contain a double quote,
then map each kept line to its trim. -/
def quotedLines (s : String) : List String :=
  ((splitJsLines s).filter
      (fun line =>
        jsTrim line ≠ "" && jsStartsWithChar (jsTrim line) '"' && jsIncludes line "\"")).map
    jsTrim

/-- The body of the outer `try` of `parseQuestions`: direct `JSON.parse`,
which must yield an array, sanitized elementwise; a parse failure, a
non-array value and a non-string element are all thrown (and caught by
the outer `catch`). -/
def directQuestions (questionsText : String) : Except Unit (List String) :=
  match JSONparse questionsText with
  | some (Json.arr xs) => sanitizeQuestionsJ xs
  | some _ => .error ()
  | none => .error ()

/-- The last-resort value of `parseQuestions`: the single-element array
holding the sanitized trimmed input (sanitizing a one-string array cannot
throw). -/
def fallbackQuestions (questionsText : String) : List String :=
  [sanitizeQuestion (jsTrim questionsText)]

/-- The recovery block of `parseQuestions` (the outer `catch`): when the
bracket capture is truthy, parse and sanitize it, any throw landing in
the inner `catch` which returns the fallback; otherwise keep the quoted
lines if there are any, else return the fallback. The quoted-line and
fallback paths apply string methods to strings and cannot throw, so the
block always returns a value. -/
def recoveryQuestions (questionsText : String) : List String :=
  match bracketCapture questionsText with
  | some inner =>
    if inner = "" then
      match quotedLines questionsText with
      | [] => fallbackQuestions questionsText
      | l :: ls => (l :: ls).map sanitizeQuestion
    else
      match JSONparse ("[" ++ inner ++ "]") with
      | some (Json.arr xs) =>
        match sanitizeQuestionsJ xs with
        | .ok qs => qs
        | .error _ => fallbackQuestions questionsText
      | some _ => fallbackQuestions questionsText
      | none => fallbackQuestions questionsText
  | none =>
    match quotedLines questionsText with
    | [] => fallbackQuestions questionsText
    | l :: ls => (l :: ls).map sanitizeQuestion

/-- `parseQuestions` from `route.ts`, with each JavaScript `throw` site
modelled by `Except.error` and each `try`/`catch` by a `match` on the
protected computation: (1) direct `JSON.parse`; on failure (2) the
bracket-extracted substring, (3) the quoted lines, (4) the single-element
fallback, in that fixed order. -/
def parseQuestions (questionsText : String) : Except Unit (List String) :=
  match directQuestions questionsText with
  | .ok qs => .ok qs
  | .error _ => .ok (recoveryQuestions questionsText)

/-- The three input shapes `formatTechstack` accepts: a JavaScript array,
a string, or an absent value. -/
inductive TechstackInput where
  | arrIn (l : List String)
  | strIn (s : String)
  | undef

/-- Worker for `formatTechstack`: `s.split(",")` on character lists (an
input without a comma yields the one-element list holding it, as in
JavaScript). -/
def splitOnCommaGo (acc : List Char) : List Char → List String
  | [] => [String.mk acc.reverse]
  | c :: rest =>
    if c = ',' then String.mk acc.reverse :: splitOnCommaGo [] rest
    else splitOnCommaGo (c :: acc) rest

/-- `formatTechstack` from `route.ts`: an array is returned unchanged, a
string is split on commas with each entry trimmed, anything else yields
the fixed default list. -/
def formatTechstack : TechstackInput → List String
  | .arrIn l => l
  | .strIn s => (splitOnCommaGo [] s.toList).map jsTrim
  | .undef => ["JavaScript", "React"]

/-! ## `types/interview.ts`: shared data shapes -/

/-- The `CallStatus` enumeration. -/
inductive CallStatus where
  | INACTIVE
  | CONNECTING
  | ACTIVE
  | FINISHED
deriving Repr, DecidableEq

/-- A `SavedMessage` as built by `onMessage`: both fields come out of
unchecked casts of optional provider fields, so either may be absent at
runtime; the optionality is kept. -/
structure SavedMessage where
  role : Option String
  content : Option String
deriving Repr, DecidableEq

/-- The mutable `InterviewData` record filled by the Field Extractor. -/
structure InterviewData where
  role : String
  type : String
  level : String
  techstack : String
  amount : Nat
deriving Repr, DecidableEq

/-- A provider `message` event as consumed by `onMessage` and
`extractDataFromMessage` (`VapiMessage`); the fields not read by the
embedded code are omitted. -/
structure VapiMessage where
  type : String
  transcriptType : Option String
  role : Option String
  transcript : Option String
deriving Repr, DecidableEq

/-! ## `hooks/useInterviewData.ts`: the Field Extractor -/

/-- The default-initialized `InterviewData` of `useInterviewData`. -/
def defaultInterviewData : InterviewData :=
  { role := "", type := "mixed", level := "", techstack := "", amount := 5 }

/-- The role family recognized in a lower-cased fragment, in source
order. -/
def roleOf (lower : String) : Option String :=
  if jsIncludes lower "front end" || jsIncludes lower "frontend" then
    some "Frontend Developer"
  else if jsIncludes lower "back end" || jsIncludes lower "backend" then
    some "Backend Developer"
  else if jsIncludes lower "full stack" || jsIncludes lower "fullstack" then
    some "Full Stack Developer"
  else none

/-- The experience level recognized in a lower-cased fragment, in source
order. -/
def levelOf (lower : String) : Option String :=
  if jsIncludes lower "entry level" || jsIncludes lower "junior" then some "entry"
  else if jsIncludes lower "mid" || jsIncludes lower "intermediate" then some "mid"
  else if jsIncludes lower "senior" || jsIncludes lower "expert" then some "senior"
  else none

/-- The interview type recognized in a lower-cased fragment, in source
order. -/
def typeOf (lower : String) : Option String :=
  if jsIncludes lower "technical" then some "technical"
  else if jsIncludes lower "behavioral" then some "behavioral"
  else if jsIncludes lower "mixed" then some "mixed"
  else none

/-- The fixed technology vocabulary of the extractor, in source order. -/
def techKeywords : List String :=
  ["next.js", "react", "javascript", "typescript", "node", "vue", "angular",
   "html", "css", "tailwind", "bootstrap", "python", "django", "ruby", "rails"]

/-- The role block of `extractDataFromMessage`: gated on the fragment
containing "role" AND the current role being unset (falsy). -/
def updateRole (content lower : String) (d : InterviewData) : InterviewData :=
  if jsIncludes content "role" && d.role = "" then
    match roleOf lower with
    | some r => { d with role := r }
    | none => d
  else d

/-- The experience-level block: gated on "level" or "experience" in the
fragment, with no unset guard on the current value. -/
def updateLevel (content lower : String) (d : InterviewData) : InterviewData :=
  if jsIncludes content "level" || jsIncludes content "experience" then
    match levelOf lower with
    | some l => { d with level := l }
    | none => d
  else d

/-- The interview-type block: gated on one of the three type words in the
original-case fragment, with no unset guard. -/
def updateType (content lower : String) (d : InterviewData) : InterviewData :=
  if jsIncludes content "technical" || jsIncludes content "behavioral"
      || jsIncludes content "mixed" then
    match typeOf lower with
    | some t => { d with type := t }
    | none => d
  else d

/-- The question-count block: the first digit run of the fragment sets the
count when the word "question" also occurs. -/
def updateAmount (content : String) (d : InterviewData) : InterviewData :=
  match firstDigitRun content.toList with
  | some run =>
    if jsIncludes content "question" then { d with amount := digitsToNat run }
    else d
  | none => d

/-- The tech-stack block: gated on "technologies" or "tech stack" in the
fragment; the keywords found in the lower-cased fragment are comma-joined,
and a fragment matching no keyword leaves the field unchanged. -/
def updateTech (content lower : String) (d : InterviewData) : InterviewData :=
  if jsIncludes content "technologies" || jsIncludes content "tech stack" then
    if (techKeywords.filter (fun t => jsIncludes lower (jsToLower t))).isEmpty then d
    else
      { d with techstack :=
          (String.intercalate ","
            (techKeywords.filter (fun t => jsIncludes lower (jsToLower t)))) }
  else d

/-- `extractDataFromMessage` from `hooks/useInterviewData.ts`, as a pure
update of the parameters record: the five blocks run in source order on a
fragment with a truthy transcript (a missing or empty transcript, falsy in
JavaScript, leaves the record unchanged). The gate words are tested
against the original-case content, the vocabularies against the
lower-cased content, as in the source. -/
def extractDataFromMessage (d : InterviewData) (m : VapiMessage) : InterviewData :=
  match m.transcript with
  | none => d
  | some content =>
    if content = "" then d
    else
      let lower := jsToLower content
      updateTech content lower
        (updateAmount content
          (updateType content lower
            (updateLevel content lower
              (updateRole content lower d))))

/-! ## `hooks/useVapiCalls.ts`: error handling and transcript capture -/

/-- The error shapes `handleVapiError` probes with its ad hoc property
checks: a plain string, or an object carrying any of `errorMsg`,
`error.errorMsg` and `message`. -/
inductive VapiError where
  | strErr (s : String)
  | objErr (errorMsg : Option String) (nestedErrorMsg : Option String)
      (message : Option String)
deriving Repr, DecidableEq

/-- The four-way benign-termination test at the top of `handleVapiError`:
`errorMsg` or `error.errorMsg` strictly equal to "Meeting has ended", a
string error containing it, or a truthy `message` containing it. -/
def isMeetingEnded : VapiError → Bool
  | .strErr s => jsIncludes s "Meeting has ended"
  | .objErr em nested msg =>
    em = some "Meeting has ended" || nested = some "Meeting has ended" ||
      (match msg with
       | some m => m ≠ "" && jsIncludes m "Meeting has ended"
       | none => false)

/-- The user-visible text `handleVapiError` sets for a real error:
a string error verbatim, otherwise the first truthy of `errorMsg`,
`message` and the fixed default. -/
def vapiErrorText : VapiError → String
  | .strErr s => s
  | .objErr em _ msg =>
    match em with
    | some e =>
      if e ≠ "" then e
      else
        match msg with
        | some m => if m ≠ "" then m else "An error occurred with the interview service"
        | none => "An error occurred with the interview service"
    | none =>
      match msg with
      | some m => if m ≠ "" then m else "An error occurred with the interview service"
      | none => "An error occurred with the interview service"

/-- What `handleVapiError` does to the owning state: the call status it
sets and the error message it sets, if any. -/
structure VapiErrorOutcome where
  status : CallStatus
  errorSet : Option String
deriving Repr, DecidableEq

/-- `handleVapiError` from `hooks/useVapiCalls.ts`: a benign end-of-meeting
error sets status `FINISHED` and returns without touching the error state;
every other error sets the error state and then status `INACTIVE`. -/
def handleVapiError (e : VapiError) : VapiErrorOutcome :=
  if isMeetingEnded e then { status := .FINISHED, errorSet := none }
  else { status := .INACTIVE, errorSet := some (vapiErrorText e) }

/-- Does `onMessage` consume this event: a `transcript` message whose
`transcriptType` is `"final"`. -/
def isFinalTranscript (m : VapiMessage) : Bool :=
  m.type = "transcript" && m.transcriptType = some "final"

/-- The `SavedMessage` `onMessage` appends for a final transcript
fragment (the unchecked casts carry the optional fields through). -/
def toSaved (m : VapiMessage) : SavedMessage :=
  { role := m.role, content := m.transcript }

/-- One `message` event through `onMessage`: a final transcript fragment
is appended to the transcript and, when the session purpose is
`"generate"`, forwarded to the Field Extractor; any other message leaves
both untouched. -/
def onMessage (sessionType : String) (st : List SavedMessage × InterviewData)
    (m : VapiMessage) : List SavedMessage × InterviewData :=
  if isFinalTranscript m then
    (st.1 ++ [toSaved m],
     if sessionType = "generate" then extractDataFromMessage st.2 m else st.2)
  else st

/-- A whole event sequence through `onMessage`. -/
def runMessages (sessionType : String) (st : List SavedMessage × InterviewData)
    (ms : List VapiMessage) : List SavedMessage × InterviewData :=
  ms.foldl (onMessage sessionType) st

/-! ## `lib/actions/general.action.ts`: feedback creation and repair -/

/-- JavaScript property access `j.key` on a parsed JSON value: a field of
an object (last duplicate wins, as in `JSON.parse`), `undefined` (`none`)
on every other value. -/
def jget (j : Json) (key : String) : Option Json :=
  match j with
  | .obj fields => (fields.reverse.find? (fun f => f.1 = key)).map (fun f => f.2)
  | _ => none

/-- Strip every occurrence of three backticks followed by `json`, and of
three bare backticks, scanning left to right with the longer alternative
preferred: the effect of the global replace of the fence regex in
`createFeedback`. Fuel is one per character, so `input.length` suffices. -/
def stripFencesGo : Nat → List Char → List Char
  | 0, cs => cs
  | n + 1, cs =>
    match cs with
    | [] => []
    | c :: rest =>
      let fenceJson := (String.mk [Char.ofNat 96, Char.ofNat 96, Char.ofNat 96]
        ++ "json").toList
      let fence := [Char.ofNat 96, Char.ofNat 96, Char.ofNat 96]
      if fenceJson.isPrefixOf cs then stripFencesGo n (cs.drop 7)
      else if fence.isPrefixOf cs then stripFencesGo n (cs.drop 3)
      else c :: stripFencesGo n rest

/-- The fence-stripping clean-up applied to the model response before
parsing. -/
def stripFences (s : String) : String :=
  String.mk (stripFencesGo s.length s.toList)

/-- The parsed-and-validated feedback object `createFeedback` prepares for
storage. `categoryScores`, `strengths` and `areasForImprovement` hold raw
JSON values: the source checks only that they are arrays (or substitutes
defaults), never their elements. -/
structure FeedbackObject where
  totalScore : Int
  categoryScores : List Json
  strengths : List Json
  areasForImprovement : List Json
  finalAssessment : String

/-- The fixed five category names, in the order of the prompt and of the
fallback object. -/
def fixedCategoryNames : List String :=
  ["Communication Skills", "Technical Knowledge", "Problem Solving",
   "Cultural Fit", "Confidence and Clarity"]

/-- One fallback category entry. -/
def fallbackCategory (name : String) : Json :=
  .obj [("name", .str name), ("score", .num 50),
        ("comment", .str "Limited assessment due to brief interview")]

/-- The fallback feedback object built in the `catch` of the response
parse: all five categories at score 50 and fixed explanatory texts. -/
def fallbackFeedback : FeedbackObject :=
  { totalScore := 50
    categoryScores := fixedCategoryNames.map fallbackCategory
    strengths := [.str "Unable to assess from limited conversation"]
    areasForImprovement := [.str "Need more substantial interview to evaluate"]
    finalAssessment := "Unable to provide a complete assessment due to limited interview data. Consider conducting a more extensive interview." }

/-- Does the cleaned response text survive the parse and the two `throw`
checks (`totalScore` a number, `categoryScores` an array)? When it does
not, the fallback object is used. -/
def feedbackResponseOk (text : String) : Bool :=
  match JSONparse (stripFences (jsTrim text)) with
  | none => false
  | some j =>
    (match jget j "totalScore" with
     | some (.num _) => true
     | _ => false) &&
    (match jget j "categoryScores" with
     | some (.arr _) => true
     | _ => false)

/-- The response-parsing block of `createFeedback`: trim and strip fences,
`JSON.parse`, throw (hence fall back) unless `totalScore` is a number and
`categoryScores` is an array, substitute defaults for a non-array
`strengths` or `areasForImprovement` and for a non-string or empty
`finalAssessment`. -/
def parseFeedbackResponse (text : String) : FeedbackObject :=
  match JSONparse (stripFences (jsTrim text)) with
  | none => fallbackFeedback
  | some j =>
    match jget j "totalScore" with
    | some (.num n) =>
      match jget j "categoryScores" with
      | some (.arr cats) =>
        { totalScore := n
          categoryScores := cats
          strengths :=
            match jget j "strengths" with
            | some (.arr xs) => xs
            | _ => [.str "Evaluation limited due to brief interview"]
          areasForImprovement :=
            match jget j "areasForImprovement" with
            | some (.arr xs) => xs
            | _ => [.str "Need more conversation to provide detailed areas for improvement"]
          finalAssessment :=
            match jget j "finalAssessment" with
            | some (.str s) =>
              if s = "" then "Assessment limited due to brief interview content." else s
            | _ => "Assessment limited due to brief interview content." }
      | _ => fallbackFeedback
    | _ => fallbackFeedback

/-- The arguments of `createFeedback`. Identifiers are optional strings
(absent or empty is falsy in the validation); the transcript is an
optional list (an empty list is a truthy value in JavaScript). -/
structure CreateFeedbackParams where
  interviewId : Option String
  userId : Option String
  transcript : Option (List SavedMessage)
  feedbackId : Option String

/-- Falsiness of an optional string: absent or empty. -/
def jsFalsyStr : Option String → Bool
  | none => true
  | some s => s = ""

/-- The validation predicate of `createFeedback`:
`!interviewId || !userId || !transcript`. -/
def missingFeedbackParams (p : CreateFeedbackParams) : Bool :=
  jsFalsyStr p.interviewId || jsFalsyStr p.userId || p.transcript.isNone

/-- The record `createFeedback` writes to the `feedback` collection
(`createdAt`, an external clock read, is omitted). -/
structure FeedbackRecord where
  interviewId : String
  userId : String
  totalScore : Int
  categoryScores : List Json
  strengths : List Json
  areasForImprovement : List Json
  finalAssessment : String

/-- What one call of `createFeedback` did: whether the language model was
invoked, what record (if any) was written, and the returned `success`
flag. -/
structure CreateFeedbackOutcome where
  calledModel : Bool
  written : Option FeedbackRecord
  success : Bool

/-- `createFeedback` from `general.action.ts`, with the language-model
response supplied as an oracle argument and the document store modelled as
the written record (the store-failure `catch`, an external fault, is not a
behavior of this code). Missing parameters return `success: false` before
the model is called or anything is written; otherwise the repaired
response is stored and `success: true` returned. -/
def createFeedback (p : CreateFeedbackParams) (responseText : String) :
    CreateFeedbackOutcome :=
  if missingFeedbackParams p then
    { calledModel := false, written := none, success := false }
  else
    let fb := parseFeedbackResponse responseText
    { calledModel := true
      written := some
        { interviewId := p.interviewId.getD ""
          userId := p.userId.getD ""
          totalScore := fb.totalScore
          categoryScores := fb.categoryScores
          strengths := fb.strengths
          areasForImprovement := fb.areasForImprovement
          finalAssessment := fb.finalAssessment }
      success := true }

/-- The `name` property of a category entry, when it is an object with a
string name. -/
def categoryName (c : Json) : Option String :=
  match jget c "name" with
  | some (.str s) => some s
  | _ => none

/-- The `score` property of a category entry, when it is an object with a
numeric score. -/
def categoryScore (c : Json) : Option Int :=
  match jget c "score" with
  | some (.num n) => some n
  | _ => none

/-- The claimed Feedback invariant: the category list carries exactly the
five fixed category names, in order, and every score lies in [0, 100]. -/
def fiveCategoriesValid (cats : List Json) : Bool :=
  cats.map categoryName = fixedCategoryNames.map some &&
    cats.all (fun c =>
      match categoryScore c with
      | some n => 0 ≤ n && n ≤ 100
      | none => false)

/-! ## `components/Agent.tsx`: the terminal-state effect -/

/-- The configuration of one `Agent` mount: the session purpose and
whether the interview and user identifiers are present (and truthy). -/
structure AgentConfig where
  type : String
  hasInterviewId : Bool
  hasUserId : Bool
  interviewId : String

/-- The component state the terminal-state effect reads and writes:
call status, accumulated transcript, the "submission in progress" flag,
whether an asynchronous submission is awaiting its result, the feedback
submissions issued so far (each the transcript it carried), the interview
generations issued so far, the navigation targets scheduled so far, and
the error message. -/
structure AgentState where
  callStatus : CallStatus
  messages : List SavedMessage
  isSubmitting : Bool
  pendingSubmission : Bool
  submissions : List (List SavedMessage)
  genSubmissions : Nat
  navTargets : List String
  errorMsg : Option String
deriving Repr, DecidableEq

/-- The initial `Agent` state. -/
def initialAgentState : AgentState :=
  { callStatus := .INACTIVE, messages := [], isSubmitting := false
    pendingSubmission := false, submissions := [], genSubmissions := 0
    navTargets := [], errorMsg := none }

/-- The events the terminal-state analysis follows: a final transcript
fragment appended by `onMessage`, the provider `call-start` and `call-end`
events, one firing of the status-watching effect (run to its first
`await`), and the completion of the awaited submission with its success
flag. -/
inductive AgentEvent where
  | message (m : SavedMessage)
  | callStart
  | callEnd
  | effectFire
  | submitComplete (ok : Bool)
deriving Repr, DecidableEq

/-- The route `processFinishedCall` schedules on a successful practice
submission. -/
def feedbackRoute (interviewId : String) : String :=
  "/interview/" ++ interviewId ++ "/feedback"

/-- One event against the `Agent` state, following `Agent.tsx`: the
status-watching effect runs `processFinishedCall` only when the status is
`FINISHED` and the submission flag is clear. For purpose "generate" it
starts an interview generation when the user identifier is present; for
"practice" (or "interview") it starts a feedback submission carrying the
current transcript when both identifiers are present, else records the
error and the fallback navigation. A completion clears the flag and
schedules the navigation (`/interview/id/feedback` on practice success,
the home route otherwise). -/
def stepAgent (cfg : AgentConfig) (s : AgentState) : AgentEvent → AgentState
  | .message m => { s with messages := s.messages ++ [m] }
  | .callStart => { s with callStatus := .ACTIVE }
  | .callEnd => { s with callStatus := .FINISHED }
  | .effectFire =>
    if s.callStatus = .FINISHED ∧ ¬ s.isSubmitting then
      if cfg.type = "generate" then
        if cfg.hasUserId ∧ ¬ s.isSubmitting then
          { s with isSubmitting := true, pendingSubmission := true
                   genSubmissions := s.genSubmissions + 1 }
        else { s with navTargets := s.navTargets ++ ["/"] }
      else if cfg.type = "practice" ∨ cfg.type = "interview" then
        if cfg.hasInterviewId ∧ cfg.hasUserId then
          { s with isSubmitting := true, pendingSubmission := true
                   submissions := s.submissions ++ [s.messages] }
        else
          { s with errorMsg := some "Missing interview data for feedback generation"
                   navTargets := s.navTargets ++ ["/"] }
      else { s with navTargets := s.navTargets ++ ["/"] }
    else s
  | .submitComplete ok =>
    if s.pendingSubmission then
      { s with pendingSubmission := false, isSubmitting := false
               navTargets := s.navTargets ++
                 [if ok then
                    (if cfg.type = "generate" then "/" else feedbackRoute cfg.interviewId)
                  else "/"]
               errorMsg := if ok then s.errorMsg
                 else some "Failed to create feedback. Please try again." }
    else s

/-- A whole event sequence against the `Agent` state. -/
def runAgent (cfg : AgentConfig) (s : AgentState) (evts : List AgentEvent) : AgentState :=
  evts.foldl (stepAgent cfg) s

/-! ## Supporting lemmas -/

theorem updateRole_level (c l : String) (d : InterviewData) :
    (updateRole c l d).level = d.level := by
  unfold updateRole
  split
  · split <;> rfl
  · rfl

theorem updateLevel_role (c l : String) (d : InterviewData) :
    (updateLevel c l d).role = d.role := by
  unfold updateLevel
  split
  · split <;> rfl
  · rfl

theorem updateType_role (c l : String) (d : InterviewData) :
    (updateType c l d).role = d.role := by
  unfold updateType
  split
  · split <;> rfl
  · rfl

theorem updateType_level (c l : String) (d : InterviewData) :
    (updateType c l d).level = d.level := by
  unfold updateType
  split
  · split <;> rfl
  · rfl

theorem updateAmount_role (c : String) (d : InterviewData) :
    (updateAmount c d).role = d.role := by
  unfold updateAmount
  split
  · split <;> rfl
  · rfl

theorem updateAmount_level (c : String) (d : InterviewData) :
    (updateAmount c d).level = d.level := by
  unfold updateAmount
  split
  · split <;> rfl
  · rfl

theorem updateAmount_type (c : String) (d : InterviewData) :
    (updateAmount c d).type = d.type := by
  unfold updateAmount
  split
  · split <;> rfl
  · rfl

theorem updateTech_role (c l : String) (d : InterviewData) :
    (updateTech c l d).role = d.role := by
  unfold updateTech
  split
  · split <;> rfl
  · rfl

theorem updateTech_level (c l : String) (d : InterviewData) :
    (updateTech c l d).level = d.level := by
  unfold updateTech
  split
  · split <;> rfl
  · rfl

theorem updateTech_type (c l : String) (d : InterviewData) :
    (updateTech c l d).type = d.type := by
  unfold updateTech
  split
  · split <;> rfl
  · rfl

/-! ## Claim C1 -/

/-- The fragment of the claim (its apostrophe written by code point). -/
def c1Fragment : String :=
  "I" ++ String.mk [Char.ofNat 39] ++
    "d like a backend role at senior level, technical interview, 7 questions, using react and node"

/-- The fragment as a final transcript message. -/
def c1Message : VapiMessage :=
  { type := "transcript", transcriptType := some "final", role := some "user",
    transcript := some c1Fragment }

/-- C1, counterexample: on the claimed fragment the Field Extractor leaves
the tech stack at its empty default — the result does not contain "react"
(nor "node"), because the tech-stack branch fires only when the fragment
contains "technologies" or "tech stack" and this fragment contains
neither. -/
theorem c1_techstack_not_filled :
    (extractDataFromMessage defaultInterviewData c1Message).techstack = "" ∧
      jsIncludes (extractDataFromMessage defaultInterviewData c1Message).techstack
        "react" = false ∧
      jsIncludes (extractDataFromMessage defaultInterviewData c1Message).techstack
        "node" = false :=
  ⟨rfl, rfl, rfl⟩

/-- C1, amended: feeding the claimed fragment to the Field Extractor from
the default-initialized record yields role "Backend Developer", level
"senior", type "technical" and amount 7 — but the techstack field keeps
its empty default, since the fragment contains neither of the gate words
"technologies" and "tech stack" that the tech-stack branch requires. -/
theorem c1_extraction_amended :
    extractDataFromMessage defaultInterviewData c1Message =
      { role := "Backend Developer", type := "technical", level := "senior",
        techstack := "", amount := 7 } ∧
      jsIncludes c1Fragment "technologies" = false ∧
      jsIncludes c1Fragment "tech stack" = false :=
  ⟨rfl, rfl, rfl⟩

/-! ## Claim C4 -/

/-- A fragment that sets the level to "senior". -/
def c4FirstMessage : VapiMessage :=
  { type := "transcript", transcriptType := some "final", role := some "user",
    transcript := some "senior level" }

/-- A later fragment that matches the level vocabulary again. -/
def c4SecondMessage : VapiMessage :=
  { type := "transcript", transcriptType := some "final", role := some "user",
    transcript := some "junior level please" }

/-- C4, counterexample: the level dimension, once set to "senior" by a
first fragment, IS overwritten (to "entry") by a later matching fragment —
the source guards only the role branch with an unset check, so level is
last-match-wins, contrary to the claim. -/
theorem c4_level_overwritten :
    (extractDataFromMessage defaultInterviewData c4FirstMessage).level = "senior" ∧
      (extractDataFromMessage
          (extractDataFromMessage defaultInterviewData c4FirstMessage)
          c4SecondMessage).level = "entry" :=
  ⟨rfl, rfl⟩

/-- C4, amended: only the role dimension is first-match-wins — once set to
a non-default value it is never overwritten. The level, type and
tech-stack dimensions are overwritten by every subsequent matching
fragment (last match wins), the level included, contrary to the claim
that role and level behave alike. Each conjunct: (1) a set role survives
any fragment; (2–4) on a matching fragment the new level, type and
tech-stack value is forced independently of the record it overwrites. -/
theorem c4_overwrite_policy :
    (∀ (d : InterviewData) (m : VapiMessage), d.role ≠ "" →
        (extractDataFromMessage d m).role = d.role) ∧
      (∀ (d : InterviewData) (c lv : String) (m : VapiMessage),
        m.transcript = some c → c ≠ "" →
        (jsIncludes c "level" || jsIncludes c "experience") = true →
        levelOf (jsToLower c) = some lv →
        (extractDataFromMessage d m).level = lv) ∧
      (∀ (d : InterviewData) (c ty : String) (m : VapiMessage),
        m.transcript = some c → c ≠ "" →
        (jsIncludes c "technical" || jsIncludes c "behavioral"
          || jsIncludes c "mixed") = true →
        typeOf (jsToLower c) = some ty →
        (extractDataFromMessage d m).type = ty) ∧
      (∀ (d : InterviewData) (c : String) (m : VapiMessage),
        m.transcript = some c → c ≠ "" →
        (jsIncludes c "technologies" || jsIncludes c "tech stack") = true →
        (techKeywords.filter
            (fun t => jsIncludes (jsToLower c) (jsToLower t))).isEmpty = false →
        (extractDataFromMessage d m).techstack =
          String.intercalate ","
            (techKeywords.filter
              (fun t => jsIncludes (jsToLower c) (jsToLower t)))) := by
  refine ⟨?_, ?_, ?_, ?_⟩
  · intro d m hrole
    unfold extractDataFromMessage
    cases m.transcript with
    | none => rfl
    | some content =>
      by_cases hc : content = ""
      · simp [hc]
      · simp only [hc, if_false]
        rw [updateTech_role, updateAmount_role, updateType_role, updateLevel_role]
        simp [updateRole, hrole]
  · intro d c lv m hm hc hgate hlv
    unfold extractDataFromMessage
    rw [hm]
    simp only [hc, if_false]
    rw [updateTech_level, updateAmount_level, updateType_level]
    simp [updateLevel, hgate, hlv]
  · intro d c ty m hm hc hgate hty
    unfold extractDataFromMessage
    rw [hm]
    simp only [hc, if_false]
    rw [updateTech_type, updateAmount_type]
    simp [updateType, hgate, hty]
  · intro d c m hm hc hgate hfound
    unfold extractDataFromMessage
    rw [hm]
    simp only [hc, if_false]
    simp [updateTech, hgate, hfound]

/-! ## Claim C5 -/

theorem vapiErrorText_obj_ne (em nested msg : Option String) :
    vapiErrorText (.objErr em nested msg) ≠ "" := by
  unfold vapiErrorText
  cases em with
  | none =>
    cases msg with
    | none => simp
    | some m =>
      by_cases hm : m = "" <;> simp [hm]
  | some ev =>
    by_cases he : ev = ""
    · cases msg with
      | none => simp [he]
      | some m =>
        by_cases hm : m = "" <;> simp [he, hm]
    · simp [he]

/-- C5, counterexample: the error event that is the empty string is not a
meeting-ended condition, and the handler then sets the status to INACTIVE
but stores the string verbatim as the user-visible message — which is
empty, contradicting the claim that every non-benign error sets a
non-empty message. -/
theorem c5_empty_string_error :
    isMeetingEnded (.strErr "") = false ∧
      handleVapiError (.strErr "") =
        { status := .INACTIVE, errorSet := some "" } :=
  ⟨rfl, rfl⟩

/-- C5, amended: an error recognized as the normal end-of-meeting
condition (in any of the four probed shapes) drives the status to FINISHED
with no error message set; every other error drives the status to INACTIVE
and sets an error message, which is non-empty whenever the error is
object-shaped — a string-shaped error is stored verbatim, so it is empty
exactly when the string itself is. The last two conjuncts instantiate the
two branches. -/
theorem c5_error_policy :
    (∀ e : VapiError, isMeetingEnded e = true →
        handleVapiError e = { status := .FINISHED, errorSet := none }) ∧
      (∀ e : VapiError, isMeetingEnded e = false →
        (handleVapiError e).status = .INACTIVE ∧
          ∃ msg, (handleVapiError e).errorSet = some msg ∧
            (∀ em nested m, e = .objErr em nested m → msg ≠ "") ∧
            (∀ s, e = .strErr s → msg = s)) ∧
      handleVapiError (.objErr (some "Meeting has ended") none none) =
        { status := .FINISHED, errorSet := none } ∧
      handleVapiError (.objErr none none (some "boom")) =
        { status := .INACTIVE, errorSet := some "boom" } := by
  refine ⟨?_, ?_, rfl, rfl⟩
  · intro e h
    simp [handleVapiError, h]
  · intro e h
    refine ⟨by simp [handleVapiError, h], vapiErrorText e, by simp [handleVapiError, h],
      ?_, ?_⟩
    · intro em nested m he
      subst he
      exact vapiErrorText_obj_ne em nested m
    · intro s he
      subst he
      rfl

/-! ## Claim C8 -/

theorem runMessages_transcript (ty : String) (ms : List VapiMessage) :
    ∀ st : List SavedMessage × InterviewData,
      (runMessages ty st ms).1 = st.1 ++ (ms.filter isFinalTranscript).map toSaved := by
  induction ms with
  | nil =>
    intro st
    simp [runMessages]
  | cons m rest ih =>
    intro st
    have step : runMessages ty st (m :: rest) = runMessages ty (onMessage ty st m) rest :=
      rfl
    rw [step, ih]
    cases hf : isFinalTranscript m
    · simp [onMessage, hf]
    · simp [onMessage, hf]

/-- C8 (confirmed): starting from an empty transcript, any sequence of
provider message events accumulates exactly the final transcript
fragments, in arrival order, each saved as its role/content pair — and a
non-final message leaves the transcript (and the extraction record)
untouched. -/
theorem c8_transcript_accumulator :
    (∀ (ty : String) (d : InterviewData) (ms : List VapiMessage),
        (runMessages ty ([], d) ms).1 = (ms.filter isFinalTranscript).map toSaved) ∧
      (∀ (ty : String) (st : List SavedMessage × InterviewData) (m : VapiMessage),
        isFinalTranscript m = false → onMessage ty st m = st) := by
  constructor
  · intro ty d ms
    rw [runMessages_transcript]
    rfl
  · intro ty st m hf
    simp [onMessage, hf]

/-! ## Claim C6 -/

/-- A practice-session mount with both identifiers present. -/
def practiceConfig : AgentConfig :=
  { type := "practice", hasInterviewId := true, hasUserId := true, interviewId := "i1" }

/-- A first transcript fragment for the practice scenario. -/
def c6MsgA : SavedMessage :=
  { role := some "assistant", content := some "Tell me about yourself." }

/-- A second transcript fragment for the practice scenario. -/
def c6MsgB : SavedMessage :=
  { role := some "user", content := some "Sure, here goes." }

/-- C6, counterexample: the "submission in progress" flag does NOT prevent
a duplicate submission when the FINISHED state is observed again after the
first submission has completed — the completion clears the flag (and the
effect re-runs precisely because the flag is one of its dependencies), so
the re-observation submits the same transcript a second time: two
feedback-submission calls for one terminal state. -/
theorem c6_double_submission :
    (runAgent practiceConfig initialAgentState
        [.message c6MsgA, .message c6MsgB, .callEnd, .effectFire,
         .submitComplete true, .effectFire]).submissions =
      [[c6MsgA, c6MsgB], [c6MsgA, c6MsgB]] :=
  rfl

theorem stepAgent_fire_submitting (cfg : AgentConfig) (s : AgentState)
    (h : s.isSubmitting = true) : stepAgent cfg s .effectFire = s := by
  simp [stepAgent, h]

theorem stepAgent_fire_not_finished (cfg : AgentConfig) (s : AgentState)
    (h : ¬ s.callStatus = CallStatus.FINISHED) : stepAgent cfg s .effectFire = s := by
  simp [stepAgent, h]

/-- C6, amended: the flag prevents a duplicate submission only while the
first submission is in flight. First conjunct: a second firing of the
terminal-state effect directly after a first (no completion in between)
never adds a feedback submission or an interview generation, whatever the
state and configuration. Second conjunct: the practice scenario with a
two-fragment transcript, a call-end and a duplicated FINISHED observation
during the in-flight window issues exactly one feedback submission, whose
transcript is the two fragments in order, and on success schedules exactly
one navigation to the feedback route. (As the counterexample shows, a
re-observation after completion is not guarded against.) -/
theorem c6_single_flight :
    (∀ (cfg : AgentConfig) (s : AgentState),
        (stepAgent cfg (stepAgent cfg s .effectFire) .effectFire).submissions =
            (stepAgent cfg s .effectFire).submissions ∧
          (stepAgent cfg (stepAgent cfg s .effectFire) .effectFire).genSubmissions =
            (stepAgent cfg s .effectFire).genSubmissions) ∧
      (∀ m1 m2 : SavedMessage,
        (runAgent practiceConfig initialAgentState
            [.message m1, .message m2, .callEnd, .effectFire, .effectFire,
             .submitComplete true]).submissions = [[m1, m2]] ∧
          (runAgent practiceConfig initialAgentState
              [.message m1, .message m2, .callEnd, .effectFire, .effectFire,
               .submitComplete true]).navTargets = ["/interview/i1/feedback"]) := by
  constructor
  · intro cfg s
    by_cases h1 : s.callStatus = CallStatus.FINISHED
    · by_cases h2 : s.isSubmitting = true
      · simp only [stepAgent_fire_submitting cfg s h2]
        exact ⟨trivial, trivial⟩
      · by_cases hg : cfg.type = "generate"
        · by_cases hu : cfg.hasUserId = true
          · have h3 : (stepAgent cfg s .effectFire).isSubmitting = true := by
              simp [stepAgent, h1, h2, hg, hu]
            rw [stepAgent_fire_submitting cfg _ h3]
            exact ⟨rfl, rfl⟩
          · have hstep : stepAgent cfg s .effectFire =
                { s with navTargets := s.navTargets ++ ["/"] } := by
              simp [stepAgent, h1, h2, hg, hu]
            rw [hstep]
            constructor <;> simp [stepAgent, h1, h2, hg, hu]
        · by_cases hp : cfg.type = "practice" ∨ cfg.type = "interview"
          · by_cases hi : cfg.hasInterviewId = true ∧ cfg.hasUserId = true
            · have h3 : (stepAgent cfg s .effectFire).isSubmitting = true := by
                simp [stepAgent, h1, h2, hg, hp, hi]
              rw [stepAgent_fire_submitting cfg _ h3]
              exact ⟨rfl, rfl⟩
            · have hstep : stepAgent cfg s .effectFire =
                  { s with
                    errorMsg := some "Missing interview data for feedback generation"
                    navTargets := s.navTargets ++ ["/"] } := by
                simp [stepAgent, h1, h2, hg, hp, hi]
              rw [hstep]
              constructor <;> simp [stepAgent, h1, h2, hg, hp, hi]
          · have hstep : stepAgent cfg s .effectFire =
                { s with navTargets := s.navTargets ++ ["/"] } := by
              simp [stepAgent, h1, h2, hg, hp]
            rw [hstep]
            constructor <;> simp [stepAgent, h1, h2, hg, hp]
    · simp only [stepAgent_fire_not_finished cfg s h1]
      exact ⟨trivial, trivial⟩
  · intro m1 m2
    exact ⟨rfl, rfl⟩

/-! ## Claims C2 and C3 -/

theorem sanitizeQuestionsJ_length (xs : List Json) :
    ∀ qs : List String, sanitizeQuestionsJ xs = .ok qs → qs.length = xs.length := by
  induction xs with
  | nil =>
    intro qs h
    simp only [sanitizeQuestionsJ, Except.ok.injEq] at h
    subst h
    rfl
  | cons x rest ih =>
    intro qs h
    cases x <;> simp only [sanitizeQuestionsJ] at h <;> try exact absurd h (by simp)
    case str s =>
      cases hr : sanitizeQuestionsJ rest with
      | ok qs2 =>
        rw [hr] at h
        simp only [Except.ok.injEq] at h
        subst h
        simp [ih qs2 hr]
      | error e =>
        rw [hr] at h
        exact absurd h (by simp)

theorem directQuestions_empty (s : String) (qs : List String)
    (h : directQuestions s = .ok qs) (he : qs = []) :
    JSONparse s = some (Json.arr []) := by
  unfold directQuestions at h
  cases hj : JSONparse s with
  | none =>
    rw [hj] at h
    dsimp only at h
    exact absurd h (by simp)
  | some v =>
    rw [hj] at h
    rcases v with _ | b | n | st | xs | fl <;> dsimp only at h
    · exact absurd h (by simp)
    · exact absurd h (by simp)
    · exact absurd h (by simp)
    · exact absurd h (by simp)
    · have hlen := sanitizeQuestionsJ_length xs qs h
      subst he
      cases xs with
      | nil => rfl
      | cons a b => simp at hlen
    · exact absurd h (by simp)

theorem recoveryQuestions_empty (s : String) (he : recoveryQuestions s = []) :
    ∃ inner, bracketCapture s = some inner ∧ inner ≠ "" ∧
      JSONparse ("[" ++ inner ++ "]") = some (Json.arr []) := by
  unfold recoveryQuestions at he
  cases hb : bracketCapture s with
  | none =>
    rw [hb] at he
    dsimp only at he
    cases hq : quotedLines s with
    | nil =>
      rw [hq] at he
      dsimp only at he
      exact absurd he (by simp [fallbackQuestions])
    | cons l ls =>
      rw [hq] at he
      dsimp only at he
      exact absurd he (by simp)
  | some inner =>
    rw [hb] at he
    dsimp only at he
    by_cases hin : inner = ""
    · rw [if_pos hin] at he
      cases hq : quotedLines s with
      | nil =>
        rw [hq] at he
        dsimp only at he
        exact absurd he (by simp [fallbackQuestions])
      | cons l ls =>
        rw [hq] at he
        dsimp only at he
        exact absurd he (by simp)
    · rw [if_neg hin] at he
      cases hj : JSONparse ("[" ++ inner ++ "]") with
      | none =>
        rw [hj] at he
        dsimp only at he
        exact absurd he (by simp [fallbackQuestions])
      | some v =>
        rw [hj] at he
        rcases v with _ | b | n | st | xs | fl <;> dsimp only at he
        · exact absurd he (by simp [fallbackQuestions])
        · exact absurd he (by simp [fallbackQuestions])
        · exact absurd he (by simp [fallbackQuestions])
        · exact absurd he (by simp [fallbackQuestions])
        · cases hs : sanitizeQuestionsJ xs with
          | ok qs =>
            rw [hs] at he
            dsimp only at he
            have hlen := sanitizeQuestionsJ_length xs qs hs
            rw [he] at hlen
            refine ⟨inner, rfl, hin, ?_⟩
            rw [hj]
            cases xs with
            | nil => rfl
            | cons a b => simp at hlen
          | error e =>
            rw [hs] at he
            dsimp only at he
            exact absurd he (by simp [fallbackQuestions])
        · exact absurd he (by simp [fallbackQuestions])

/-- C2, counterexample: the input that is the empty JSON array parses
directly and yields an empty questions list — no fallback question is
inserted, so an Interview created from this model response has an empty
`questions` list, contradicting the claimed invariant. -/
theorem c2_empty_array_input :
    parseQuestions "[]" = Except.ok ([] : List String) :=
  rfl

/-- C2, amended: `parseQuestions` returns an empty list only when the
model response itself parses as the empty JSON array — directly, or
through the bracket-extraction recovery. In every other case, in
particular on total parse failure, the result is non-empty (the
single-element fallback or the non-empty quoted-line list). -/
theorem c2_nonempty_amended (s : String) (qs : List String)
    (h : parseQuestions s = .ok qs) (he : qs = []) :
    JSONparse s = some (Json.arr []) ∨
      ∃ inner, bracketCapture s = some inner ∧ inner ≠ "" ∧
        JSONparse ("[" ++ inner ++ "]") = some (Json.arr []) := by
  unfold parseQuestions at h
  cases hd : directQuestions s with
  | ok qs2 =>
    rw [hd] at h
    simp only [Except.ok.injEq] at h
    subst h
    exact Or.inl (directQuestions_empty s qs2 hd he)
  | error e =>
    rw [hd] at h
    simp only [Except.ok.injEq] at h
    subst h
    exact Or.inr (recoveryQuestions_empty s he)

/-- C2, witness: the amended theorem applied at the concrete input `"[]"`,
whose direct parse is the empty array. -/
theorem c2_nonempty_amended_witness :
    JSONparse "[]" = some (Json.arr []) ∨
      ∃ inner, bracketCapture "[]" = some inner ∧ inner ≠ "" ∧
        JSONparse ("[" ++ inner ++ "]") = some (Json.arr []) :=
  c2_nonempty_amended "[]" [] rfl rfl

/-- C3 (confirmed): `parseQuestions` is total — for every input string it
returns (never throws) a list of strings, the recovery cascade absorbing
every failure of the direct parse; and the three fixture inputs exercise
the direct-parse, bracket-extraction and last-resort paths of the fixed
recovery order. -/
theorem c3_parse_total :
    (∀ s : String, ∃ qs : List String, parseQuestions s = .ok qs) ∧
      parseQuestions "[\"Q1\",\"Q2\"]" = .ok ["Q1", "Q2"] ∧
      parseQuestions "Here are some: [\"Q1\",\"Q2\"]" = .ok ["Q1", "Q2"] ∧
      parseQuestions "garbage" = .ok ["garbage"] := by
  refine ⟨?_, rfl, rfl, rfl⟩
  intro s
  unfold parseQuestions
  cases hd : directQuestions s with
  | ok qs => exact ⟨qs, rfl⟩
  | error e => exact ⟨recoveryQuestions s, rfl⟩

/-! ## Claim C7 -/

theorem parseFeedbackResponse_fallback (t : String)
    (h : feedbackResponseOk t = false) :
    parseFeedbackResponse t = fallbackFeedback := by
  unfold feedbackResponseOk at h
  unfold parseFeedbackResponse
  cases hj : JSONparse (stripFences (jsTrim t)) with
  | none => rfl
  | some j =>
    rw [hj] at h
    dsimp only at h ⊢
    cases hts : jget j "totalScore" with
    | none => rfl
    | some v =>
      rw [hts] at h
      rcases v with _ | b | n | st | xs | fl <;> dsimp only at h ⊢ <;> try rfl
      cases hcs : jget j "categoryScores" with
      | none => rfl
      | some w =>
        rw [hcs] at h
        rcases w with _ | b2 | n2 | st2 | xs2 | fl2 <;> dsimp only at h ⊢ <;> try rfl
        simp at h

/-- The concrete valid parameter record used by the C7 theorems. -/
def c7Params : CreateFeedbackParams :=
  { interviewId := some "interview-1", userId := some "user-1",
    transcript := some [{ role := some "user", content := some "Hi." }],
    feedbackId := none }

/-- A well-formed JSON model response whose `categoryScores` array is
empty: it passes both validation checks of `createFeedback` and is stored
as-is. -/
def c7BadResponse : String :=
  "\x7b\"totalScore\": 10, \"categoryScores\": [], \"strengths\": [], \"areasForImprovement\": [], \"finalAssessment\": \"ok\"\x7d"

/-- C7, counterexample: a model response that parses as JSON with a
numeric `totalScore` and an (empty) `categoryScores` array is written
unchanged — the stored Feedback has no category entry at all, so its
category list does not carry the five fixed names, contradicting the
claimed invariant. -/
theorem c7_unchecked_categories :
    (createFeedback c7Params c7BadResponse).success = true ∧
      ((createFeedback c7Params c7BadResponse).written.map
          (fun r => fiveCategoriesValid r.categoryScores)) = some false :=
  ⟨rfl, rfl⟩

/-- C7, amended: the five-fixed-categories/score-in-range invariant holds
for every Feedback written through the malformed-response fallback (parse
failure, non-numeric `totalScore`, or non-array `categoryScores`): the
fallback object carries exactly the five fixed names with every score 50.
A response passing those two shape checks, however, is stored as-is with
no constraint on its category names or score ranges. -/
theorem c7_fallback_categories (p : CreateFeedbackParams) (t : String)
    (hp : missingFeedbackParams p = false) (ht : feedbackResponseOk t = false) :
    ((createFeedback p t).written.map
        (fun r => fiveCategoriesValid r.categoryScores)) = some true ∧
      (createFeedback p t).success = true := by
  unfold createFeedback
  rw [hp]
  dsimp only
  rw [parseFeedbackResponse_fallback t ht]
  exact ⟨rfl, rfl⟩

/-- C7, witness: the amended theorem applied to the valid parameter record
and the unparsable response "garbage". -/
theorem c7_fallback_categories_witness :
    ((createFeedback c7Params "garbage").written.map
        (fun r => fiveCategoriesValid r.categoryScores)) = some true ∧
      (createFeedback c7Params "garbage").success = true :=
  c7_fallback_categories c7Params "garbage" rfl rfl

/-! ## Claim C9 -/

theorem missingFeedbackParams_iff (p : CreateFeedbackParams) :
    missingFeedbackParams p = true ↔
      (p.interviewId = none ∨ p.interviewId = some "" ∨ p.userId = none ∨
        p.userId = some "" ∨ p.transcript = none) := by
  rcases p with ⟨i, u, tr, f⟩
  rcases i with _ | si <;> rcases u with _ | su <;> rcases tr with _ | trl <;>
    simp [missingFeedbackParams, jsFalsyStr]

/-- C9 (confirmed): `createFeedback` short-circuits to `success: false` —
no model call, nothing written — exactly when the interview identifier,
the user identifier or the transcript argument is missing (absent or, for
the identifiers, empty, both falsy in JavaScript); and an empty transcript
list is not missing: with both identifiers present it proceeds to the
model call. -/
theorem c9_validation :
    (∀ (p : CreateFeedbackParams) (t : String),
        ((createFeedback p t).calledModel = false ∧
            (createFeedback p t).written = none ∧
            (createFeedback p t).success = false) ↔
          (p.interviewId = none ∨ p.interviewId = some "" ∨ p.userId = none ∨
            p.userId = some "" ∨ p.transcript = none)) ∧
      (∀ (t : String) (fid : Option String),
        (createFeedback
            { interviewId := some "i", userId := some "u",
              transcript := some [], feedbackId := fid } t).calledModel = true) := by
  constructor
  · intro p t
    rw [← missingFeedbackParams_iff]
    unfold createFeedback
    by_cases hm : missingFeedbackParams p = true
    · simp [hm]
    · simp [hm]
  · intro t fid
    rfl

/-! ## Claim C10 -/

theorem splitOnCommaGo_eq (cs : List Char) :
    ∀ acc : List Char,
      splitOnCommaGo acc cs =
        String.mk (acc.reverse ++ (cs.splitOn ',').headD []) ::
          ((cs.splitOn ',').tail).map String.mk := by
  induction cs with
  | nil =>
    intro acc
    simp [splitOnCommaGo, List.splitOn, List.splitOnP_nil]
  | cons c rest ih =>
    intro acc
    by_cases hc : c = ','
    · subst hc
      rcases hsp : rest.splitOn ',' with _ | ⟨s0, srest⟩
      · exact absurd hsp (List.splitOnP_ne_nil _ rest)
      · have hsp2 : List.splitOnP (fun x => x == ',') rest = s0 :: srest := hsp
        simp [splitOnCommaGo, List.splitOn, List.splitOnP_cons, ih, hsp, hsp2]
    · rcases hsp : rest.splitOn ',' with _ | ⟨s0, srest⟩
      · exact absurd hsp (List.splitOnP_ne_nil _ rest)
      · have hsp2 : List.splitOnP (fun x => x == ',') rest = s0 :: srest := hsp
        simp [splitOnCommaGo, hc, List.splitOn, List.splitOnP_cons, ih, hsp, hsp2]

/-- C10 (confirmed): `formatTechstack` is total over its three input
shapes — an array input is returned unchanged, a string input is split on
commas (the library list splitter serving as the independent description)
with every entry trimmed, and an absent input yields exactly the default
pair — so every created Interview gets a techstack list. -/
theorem c10_formatTechstack :
    (∀ l : List String, formatTechstack (.arrIn l) = l) ∧
      (∀ s : String, formatTechstack (.strIn s) =
        (s.toList.splitOn ',').map (fun cs => jsTrim (String.mk cs))) ∧
      formatTechstack .undef = ["JavaScript", "React"] := by
  refine ⟨fun l => rfl, ?_, rfl⟩
  intro s
  show (splitOnCommaGo [] s.toList).map jsTrim = _
  rw [splitOnCommaGo_eq]
  rcases hsp : s.toList.splitOn ',' with _ | ⟨s0, srest⟩
  · exact absurd hsp (List.splitOnP_ne_nil _ s.toList)
  · simp [List.map_map, Function.comp]

end AiInterview
